import Mathlib

/-!
# Verification of the creo-monitor collection pipeline

A shallow embedding of the stat parsers, the per-container collector, the
container registry (`Monitor`), the containerd `TaskDelete` handling, the
`ContainerID` constructor and the `mountinfo`-based cgroup2 mount detection
of the creo-monitor sources, together with theorems settling the claims
about them.

Modelling conventions:
* Rust byte streams handed to `from_reader` are modelled as `List Str`,
  one element per line delivered by `BufRead::read_line` (newline
  terminators are whitespace and are irrelevant to every parser involved).
* Rust `&str` values are modelled as `Str := List Char`; raw byte strings
  (container ids, which the Rust code handles as `[u8]`) as `List Nat`.
* `str::parse::<u64>` is modelled by `parseU64`, including the one leading
  `+` Rust accepts and the `u64` range check.
* Whitespace predicates are restricted to ASCII whitespace; every input the
  kernel produces for these files is ASCII.
* I/O errors (as opposed to parse errors) are environmental and are not
  modelled; `std::io::Error` values wrapping a `StatParseError` are
  modelled as the `StatParseError` itself, dropping the wrapped
  `ParseIntError` source.
-/

abbrev Str := List Char

/-- ASCII whitespace test used by the model of `split_whitespace` and `trim`. -/
def isWsChar (c : Char) : Bool :=
  c.toNat = 32 || c.toNat = 9 || c.toNat = 10 || c.toNat = 13

/-- ASCII digit test (`u8::is_ascii_digit` / `char::is_ascii_digit`). -/
def isDigitChar (c : Char) : Bool := 48 ≤ c.toNat && c.toNat ≤ 57

/-- Accumulator for `splitWhitespace`: `acc` is the current token, reversed. -/
def splitWsAux : Str → Str → List Str
  | [], acc => if acc.isEmpty then [] else [acc.reverse]
  | c :: rest, acc =>
    if isWsChar c then
      if acc.isEmpty then splitWsAux rest []
      else acc.reverse :: splitWsAux rest []
    else splitWsAux rest (c :: acc)

/-- Model of Rust `str::split_whitespace`: whitespace-separated tokens, no
empty tokens. -/
def splitWhitespace (s : Str) : List Str := splitWsAux s []

/-- Model of Rust `str::trim`. -/
def trim (s : Str) : Str :=
  ((s.dropWhile isWsChar).reverse.dropWhile isWsChar).reverse

/-- Model of Rust `str::split_once(c)`: split at the first occurrence of the
character `c`, or `none` when `c` does not occur. -/
def splitOnceChar (c : Char) : Str → Option (Str × Str)
  | [] => none
  | x :: rest =>
    if x = c then some ([], rest)
    else
      match splitOnceChar c rest with
      | some (a, b) => some (x :: a, b)
      | none => none

/-- `pat` is a leading pattern of `s` (Rust `str::starts_with`). -/
def startsWithTok : Str → Str → Bool
  | [], _ => true
  | _ :: _, [] => false
  | p :: ps, c :: cs => p = c && startsWithTok ps cs

/-- Model of Rust `str::split_once(pat)` for a multi-character pattern:
split at the first occurrence of `pat`. -/
def splitOnceStr (pat : Str) : Str → Option (Str × Str)
  | [] => none
  | x :: rest =>
    if startsWithTok pat (x :: rest) then some ([], (x :: rest).drop pat.length)
    else
      match splitOnceStr pat rest with
      | some (a, b) => some (x :: a, b)
      | none => none

/-- Digit-fold helper for `parseU64` (most significant digit first). -/
def parseDigitsAux : Str → Nat → Option Nat
  | [], acc => some acc
  | c :: cs, acc =>
    if isDigitChar c then parseDigitsAux cs (acc * 10 + (c.toNat - 48)) else none

/-- Drop the single leading `+` that `u64::from_str` accepts. -/
def stripPlus : Str → Str
  | [] => []
  | c :: rest => if c = '+' then rest else c :: rest

/-- Model of Rust `str::parse::<u64>()`: an optional leading `+`, one or
more ASCII digits, and the value must fit in 64 bits. -/
def parseU64 (s : Str) : Option Nat :=
  match stripPlus s with
  | [] => none
  | t =>
    match parseDigitsAux t 0 with
    | some n => if n < 2 ^ 64 then some n else none
    | none => none

/-- Decimal digit character for `d < 10`. -/
def digitChar (d : Nat) : Char := Char.ofNat (48 + d)

/-- Decimal digits of `n`, least significant first (empty for `0`). -/
def natRevDigits : Nat → List Nat
  | 0 => []
  | n + 1 => ((n + 1) % 10) :: natRevDigits ((n + 1) / 10)
decreasing_by exact Nat.div_lt_self (Nat.succ_pos n) (by norm_num)

/-- Decimal rendering of a natural number, as Rust `format!("{n}")` writes a
`u64`. -/
def natRepr (n : Nat) : Str :=
  if n = 0 then ['0'] else ((natRevDigits n).reverse).map digitChar

instance {ε α : Type} [DecidableEq ε] [DecidableEq α] : DecidableEq (Except ε α) :=
  fun x y =>
    match x, y with
    | .ok a, .ok b =>
      if h : a = b then .isTrue (by rw [h]) else .isFalse (by intro hc; cases hc; exact h rfl)
    | .error a, .error b =>
      if h : a = b then .isTrue (by rw [h]) else .isFalse (by intro hc; cases hc; exact h rfl)
    | .ok _, .error _ => .isFalse (by intro hc; cases hc)
    | .error _, .ok _ => .isFalse (by intro hc; cases hc)

/-- `Except.isOk` spelled out, used when characterising registry retention. -/
def exceptOk {ε α : Type} : Except ε α → Bool
  | .ok _ => true
  | .error _ => false

/-- `Except.toOption` spelled out. -/
def exceptToOption {ε α : Type} : Except ε α → Option α
  | .ok a => some a
  | .error _ => none

/-- `StatParseError` of `cgroup/stats/error.rs` (the `ParseIntError` source
carried by `InvalidKeyValue`/`InvalidValue` is dropped). -/
inductive StatParseError : Type
  | invalidKeyValue (key value : Str) (line : Nat)
  | invalidValue (value : Str) (line : Nat)
  | duplicateField (field : Str) (line : Nat)
deriving DecidableEq

/-- The five policy knobs of the `KeyValueStat` trait (associated constants
in the Rust source). -/
structure KVConfig : Type where
  splitChar : Option Char
  skipLines : Nat
  skipValues : Nat
  allowDuplicateKeys : Bool
  allowMultipleKVPerLine : Bool
deriving DecidableEq

/-- `KeyValueStat::parse_and_set`: look the key up among the handlers, parse
the value (reporting `InvalidKeyValue` on failure), then check for a
duplicate of a recognized key (reporting `DuplicateField`), then apply the
handler.  Unknown keys fall through to the default `on_unknown_key`, which
succeeds without touching the state. -/
def parseAndSet {σ : Type} (cfg : KVConfig) (handlers : List (Str × (σ → Nat → σ)))
    (key val : Str) (stat : σ) (lineno : Nat) (seen : List Str) :
    Except StatParseError (σ × List Str) :=
  match List.lookup key handlers with
  | some handler =>
    match parseU64 val with
    | none => .error (.invalidKeyValue key val lineno)
    | some parsed =>
      if !cfg.allowDuplicateKeys && key ∈ seen then
        .error (.duplicateField key lineno)
      else
        .ok (handler stat parsed,
             if cfg.allowDuplicateKeys then seen else key :: seen)
  | none => .ok (stat, seen)

/-- `KeyValueStat::parse_flat_pairs`: alternating `key value` whitespace
tokens; the loop stops after the first pair unless
`allow_multiple_kv_per_line` is set, and stops when a key has no value. -/
def parseFlatPairs {σ : Type} (cfg : KVConfig) (handlers : List (Str × (σ → Nat → σ))) :
    List Str → σ → Nat → List Str → Except StatParseError (σ × List Str)
  | key :: val :: rest, stat, lineno, seen => do
    let (s, sn) ← parseAndSet cfg handlers key val stat lineno seen
    if cfg.allowMultipleKVPerLine then
      parseFlatPairs cfg handlers rest s lineno sn
    else
      pure (s, sn)
  | _, stat, _, seen => pure (stat, seen)

/-- `KeyValueStat::parse_split_pairs`: each whitespace token is split on
`splitChar` into a pair; tokens lacking the split character are skipped;
the loop stops after the first token unless `allow_multiple_kv_per_line`. -/
def parseSplitPairs {σ : Type} (cfg : KVConfig) (handlers : List (Str × (σ → Nat → σ)))
    (c : Char) : List Str → σ → Nat → List Str → Except StatParseError (σ × List Str)
  | [], stat, _, seen => pure (stat, seen)
  | t :: rest, stat, lineno, seen => do
    let (s, sn) ←
      match splitOnceChar c t with
      | some (key, val) => parseAndSet cfg handlers key val stat lineno seen
      | none => pure (stat, seen)
    if cfg.allowMultipleKVPerLine then
      parseSplitPairs cfg handlers c rest s lineno sn
    else
      pure (s, sn)

/-- `KeyValueStat::parse_line`: drop the first `skipValues` whitespace
tokens, then dispatch on `splitChar`. -/
def parseLine {σ : Type} (cfg : KVConfig) (handlers : List (Str × (σ → Nat → σ)))
    (line : Str) (lineno : Nat) (stat : σ) (seen : List Str) :
    Except StatParseError (σ × List Str) :=
  let parts := (splitWhitespace line).drop cfg.skipValues
  match cfg.splitChar with
  | some c => parseSplitPairs cfg handlers c parts stat lineno seen
  | none => parseFlatPairs cfg handlers parts stat lineno seen

/-- The read loop of `KeyValueStat::from_reader`, keeping the full state:
resulting record, seen keys, and whether the early-termination break (all
recognized keys seen while duplicates are disallowed) fired. -/
def runLinesAux {σ : Type} (cfg : KVConfig) (handlers : List (Str × (σ → Nat → σ))) :
    List Str → Nat → σ → List Str → Except StatParseError (σ × List Str × Bool)
  | [], _, stat, seen => .ok (stat, seen, false)
  | l :: rest, lineno, stat, seen =>
    match parseLine cfg handlers l lineno stat seen with
    | .error e => .error e
    | .ok (s, sn) =>
      if !cfg.allowDuplicateKeys && sn.length == handlers.length then
        .ok (s, sn, true)
      else
        runLinesAux cfg handlers rest (lineno + 1) s sn

/-- `KeyValueStat::from_reader`: skip `skipLines` header lines, then run the
line loop from the `Default` record with 1-based line numbers. -/
def kvFromReader {σ : Type} [Inhabited σ] (cfg : KVConfig)
    (handlers : List (Str × (σ → Nat → σ))) (input : List Str) :
    Except StatParseError σ :=
  (runLinesAux cfg handlers (input.drop cfg.skipLines) 1 default []).map (·.1)

/-- `CpuStat` of `cgroup/stats/cpu.rs`. -/
structure CpuStat : Type where
  usage_usec : Nat
  user_usec : Nat
  system_usec : Nat
  nr_periods : Nat
  nr_throttled : Nat
  throttled_usec : Nat
  nr_bursts : Nat
  burst_usec : Nat
deriving DecidableEq

instance : Inhabited CpuStat := ⟨⟨0, 0, 0, 0, 0, 0, 0, 0⟩⟩

/-- The `SETTERS` handler map of `CpuStat` (insertion order of the source). -/
def cpuHandlers : List (Str × (CpuStat → Nat → CpuStat)) :=
  [("usage_usec".data, fun s v => { s with usage_usec := v }),
   ("user_usec".data, fun s v => { s with user_usec := v }),
   ("system_usec".data, fun s v => { s with system_usec := v }),
   ("nr_periods".data, fun s v => { s with nr_periods := v }),
   ("nr_throttled".data, fun s v => { s with nr_throttled := v }),
   ("throttled_usec".data, fun s v => { s with throttled_usec := v }),
   ("nr_bursts".data, fun s v => { s with nr_bursts := v }),
   ("burst_usec".data, fun s v => { s with burst_usec := v })]

/-- `KeyValueStat` policy constants of `CpuStat`. -/
def cpuCfg : KVConfig :=
  { splitChar := none, skipLines := 0, skipValues := 0,
    allowDuplicateKeys := false, allowMultipleKVPerLine := false }

/-- `CpuStat::from_reader`. -/
def CpuStat.fromReader (input : List Str) : Except StatParseError CpuStat :=
  kvFromReader cpuCfg cpuHandlers input

/-- `MemoryStat` of `cgroup/stats/memory.rs`. -/
structure MemoryStat : Type where
  anon : Nat
  file : Nat
  kernel_stack : Nat
  slab : Nat
  sock : Nat
  shmem : Nat
  file_mapped : Nat
deriving DecidableEq

instance : Inhabited MemoryStat := ⟨⟨0, 0, 0, 0, 0, 0, 0⟩⟩

/-- The `SETTERS` handler map of `MemoryStat`. -/
def memoryHandlers : List (Str × (MemoryStat → Nat → MemoryStat)) :=
  [("anon".data, fun s v => { s with anon := v }),
   ("file".data, fun s v => { s with file := v }),
   ("kernel_stack".data, fun s v => { s with kernel_stack := v }),
   ("slab".data, fun s v => { s with slab := v }),
   ("sock".data, fun s v => { s with sock := v }),
   ("shmem".data, fun s v => { s with shmem := v }),
   ("file_mapped".data, fun s v => { s with file_mapped := v })]

/-- `KeyValueStat` policy constants of `MemoryStat` (same as `CpuStat`). -/
def memoryCfg : KVConfig :=
  { splitChar := none, skipLines := 0, skipValues := 0,
    allowDuplicateKeys := false, allowMultipleKVPerLine := false }

/-- `MemoryStat::from_reader`. -/
def MemoryStat.fromReader (input : List Str) : Except StatParseError MemoryStat :=
  kvFromReader memoryCfg memoryHandlers input

/-- `IoStat` of `cgroup/stats/io.rs`. -/
structure IoStat : Type where
  rbytes : Nat
  wbytes : Nat
  rios : Nat
  wios : Nat
deriving DecidableEq

instance : Inhabited IoStat := ⟨⟨0, 0, 0, 0⟩⟩

instance addIoStat : Add IoStat :=
  ⟨fun a b => ⟨a.rbytes + b.rbytes, a.wbytes + b.wbytes, a.rios + b.rios, a.wios + b.wios⟩⟩

/-- The `ACCUMULATORS` handler map of `IoStat`: handlers add rather than
set. -/
def ioHandlers : List (Str × (IoStat → Nat → IoStat)) :=
  [("rbytes".data, fun s v => { s with rbytes := s.rbytes + v }),
   ("wbytes".data, fun s v => { s with wbytes := s.wbytes + v }),
   ("rios".data, fun s v => { s with rios := s.rios + v }),
   ("wios".data, fun s v => { s with wios := s.wios + v })]

/-- `KeyValueStat` policy constants of `IoStat`. -/
def ioCfg : KVConfig :=
  { splitChar := some '=', skipLines := 0, skipValues := 1,
    allowDuplicateKeys := true, allowMultipleKVPerLine := true }

/-- `IoStat::from_reader`. -/
def IoStat.fromReader (input : List Str) : Except StatParseError IoStat :=
  kvFromReader ioCfg ioHandlers input

/-- `CpuLimit` of `cgroup/stats/cpu.rs` (`cpu.max`). -/
structure CpuLimit : Type where
  quota : Option Nat
  period : Nat
deriving DecidableEq

/-- `DEFAULT_PERIOD` and the custom `Default` impl of `CpuLimit`. -/
def defaultPeriod : Nat := 100000

instance : Inhabited CpuLimit := ⟨⟨none, defaultPeriod⟩⟩

/-- `CpuLimit::from_reader`: one line; first token is the quota (`"max"` or
a `u64`, unparseable strings give `None`), second token the period
(defaulting when absent or unparseable).  Never fails. -/
def CpuLimit.fromReader (input : List Str) : CpuLimit :=
  let line := input.headD []
  let parts := splitWhitespace line
  let quotaStr := parts.headD "max".data
  let period := ((parts.get? 1).bind parseU64).getD defaultPeriod
  let quota := if quotaStr = "max".data then none else parseU64 quotaStr
  ⟨quota, period⟩

/-- `MemoryUsage` of `cgroup/stats/memory.rs` (`memory.current`). -/
structure MemoryUsage : Type where
  usage_bytes : Nat
deriving DecidableEq

instance : Inhabited MemoryUsage := ⟨⟨0⟩⟩

/-- `MemoryUsage::from_reader`: the single line, trimmed, must parse as a
`u64`; otherwise `InvalidValue` at line 1. -/
def MemoryUsage.fromReader (input : List Str) : Except StatParseError MemoryUsage :=
  let line := trim (input.headD [])
  match parseU64 line with
  | some n => .ok ⟨n⟩
  | none => .error (.invalidValue line 1)

/-- `MemoryLimit` of `cgroup/stats/memory.rs` (`memory.max`). -/
structure MemoryLimit : Type where
  limit_bytes : Option Nat
deriving DecidableEq

instance : Inhabited MemoryLimit := ⟨⟨none⟩⟩

/-- `MemoryLimit::from_reader`: `"max"` gives `none`; otherwise a parse
attempt whose failure also gives `none`.  Never fails. -/
def MemoryLimit.fromReader (input : List Str) : MemoryLimit :=
  let t := trim (input.headD [])
  if t = "max".data then ⟨none⟩ else ⟨parseU64 t⟩

/-- `NetworkStat` of `cgroup/stats/net.rs` (`/proc/<pid>/net/dev`). -/
structure NetworkStat : Type where
  rx_bytes : Nat
  rx_packets : Nat
  rx_errs : Nat
  rx_drop : Nat
  rx_fifo : Nat
  rx_frame : Nat
  rx_compressed : Nat
  rx_multicast : Nat
  tx_bytes : Nat
  tx_packets : Nat
  tx_errs : Nat
  tx_drop : Nat
  tx_fifo : Nat
  tx_colls : Nat
  tx_carrier : Nat
  tx_compressed : Nat
deriving DecidableEq

/-- `NetworkStat::default()`: all counters zero. -/
def netZero : NetworkStat := ⟨0, 0, 0, 0, 0, 0, 0, 0, 0, 0, 0, 0, 0, 0, 0, 0⟩

instance : Inhabited NetworkStat := ⟨netZero⟩

/-- The `AddAssign` impl of `NetworkStat`: field-wise addition. -/
instance addNetworkStat : Add NetworkStat :=
  ⟨fun a b =>
    ⟨a.rx_bytes + b.rx_bytes, a.rx_packets + b.rx_packets, a.rx_errs + b.rx_errs,
     a.rx_drop + b.rx_drop, a.rx_fifo + b.rx_fifo, a.rx_frame + b.rx_frame,
     a.rx_compressed + b.rx_compressed, a.rx_multicast + b.rx_multicast,
     a.tx_bytes + b.tx_bytes, a.tx_packets + b.tx_packets, a.tx_errs + b.tx_errs,
     a.tx_drop + b.tx_drop, a.tx_fifo + b.tx_fifo, a.tx_colls + b.tx_colls,
     a.tx_carrier + b.tx_carrier, a.tx_compressed + b.tx_compressed⟩⟩

/-- `IGNORED_INTERFACES` of `net.rs`. -/
def ignoredInterfaces : List Str := ["lo".data, "veth".data, "docker".data, "nerdctl".data]

/-- `is_ignored_interface`: the interface name starts with one of the
ignored prefixes. -/
def isIgnoredInterface (iface : Str) : Bool :=
  ignoredInterfaces.any (fun p => startsWithTok p iface)

/-- `parse_interface_line`: trim the line and split it at the first `:` into
the interface name and its whitespace-separated counter fields. -/
def parseInterfaceLine (line : Str) : Option (Str × List Str) :=
  (splitOnceChar ':' (trim line)).map (fun p => (p.1, splitWhitespace p.2))

/-- `stats_from_fields`: the first sixteen counters, each `parse().unwrap_or(0)`;
`none` when fewer than sixteen fields are present. -/
def statsFromFields (fields : List Str) : Option NetworkStat :=
  match fields with
  | f0 :: f1 :: f2 :: f3 :: f4 :: f5 :: f6 :: f7 ::
    f8 :: f9 :: f10 :: f11 :: f12 :: f13 :: f14 :: f15 :: _ =>
    some ⟨(parseU64 f0).getD 0, (parseU64 f1).getD 0, (parseU64 f2).getD 0,
          (parseU64 f3).getD 0, (parseU64 f4).getD 0, (parseU64 f5).getD 0,
          (parseU64 f6).getD 0, (parseU64 f7).getD 0, (parseU64 f8).getD 0,
          (parseU64 f9).getD 0, (parseU64 f10).getD 0, (parseU64 f11).getD 0,
          (parseU64 f12).getD 0, (parseU64 f13).getD 0, (parseU64 f14).getD 0,
          (parseU64 f15).getD 0⟩
  | _ => none

/-- The accumulation loop of `NetworkStat::from_reader`: malformed lines
(no `:`), ignored interfaces and short lines contribute nothing; every
other line's counters are added. -/
def netLoop : List Str → NetworkStat → NetworkStat
  | [], stat => stat
  | l :: rest, stat =>
    netLoop rest
      (match parseInterfaceLine l with
       | some (iface, fields) =>
         if isIgnoredInterface iface then stat
         else
           match statsFromFields fields with
           | some s => stat + s
           | none => stat
       | none => stat)

/-- `NetworkStat::from_reader`: skip the two header lines, then accumulate.
Never fails. -/
def NetworkStat.fromReader (input : List Str) : NetworkStat :=
  netLoop (input.drop 2) netZero

/-- The per-line contribution as the claim describes it: `none` for a line
that does not survive (malformed, ignored interface prefix, fewer than 16
counter fields), otherwise the sixteen counters with non-numeric entries
read as 0.  Used as the specification side of the `NetworkStat` claim. -/
def netSurvivingStat (l : Str) : Option NetworkStat :=
  match parseInterfaceLine l with
  | none => none
  | some (iface, fields) =>
    if isIgnoredInterface iface then none else statsFromFields fields

/-- Specification-side reading of `NetworkStat::from_reader`: the field-wise
sum over all surviving lines after the two header lines. -/
def netSpecSum (input : List Str) : NetworkStat :=
  (((input.drop 2).filterMap netSurvivingStat).foldl (· + ·) netZero)

/-- One slot-set of `Collector` (`cgroup/collector.rs`): each cgroup file
handle is modelled by the list of lines a read of it yields, `none` for an
absent slot.  `network_stat_files` is a list of such file contents. -/
structure Collector : Type where
  cpu_stat_file : Option (List Str)
  cpu_limit_file : Option (List Str)
  memory_stat_file : Option (List Str)
  memory_usage_file : Option (List Str)
  memory_limit_file : Option (List Str)
  io_stat_file : Option (List Str)
  network_stat_files : List (List Str)
deriving DecidableEq

/-- `utils::read_and_rewind`: absent files give `Ok(None)`; present files
are read and parsed, propagating the parse error (the rewind is a no-op in
the pure model). -/
def readAndRewind {T : Type} (file : Option (List Str))
    (reader : List Str → Except StatParseError T) : Except StatParseError (Option T) :=
  match file with
  | some f => (reader f).map some
  | none => .ok none

/-- `utils::read_all_and_rewind`: an empty file list gives `Ok(None)`;
otherwise the parsed values are summed with `AddAssign` starting from the
default value. -/
def readAllAndRewind {T : Type} [Add T] [Inhabited T] (files : List (List Str))
    (reader : List Str → Except StatParseError T) : Except StatParseError (Option T) :=
  if files.isEmpty then .ok none
  else (files.foldlM (fun acc f => (reader f).map (fun v => acc + v)) default).map some

/-- `CgroupStats` of `cgroup/stats/mod.rs`: one optional record per source
file. -/
structure CgroupStats : Type where
  cpu_stat : Option CpuStat
  cpu_limit : Option CpuLimit
  memory_stat : Option MemoryStat
  memory_usage : Option MemoryUsage
  memory_limit : Option MemoryLimit
  io_stat : Option IoStat
  network_stat : Option NetworkStat
deriving DecidableEq

/-- `Collector::refresh_stats`: read every slot in source order; the first
failure aborts the whole snapshot. -/
def Collector.refreshStats (c : Collector) : Except StatParseError CgroupStats := do
  let cpu_stat ← readAndRewind c.cpu_stat_file CpuStat.fromReader
  let cpu_limit ← readAndRewind c.cpu_limit_file (fun f => .ok (CpuLimit.fromReader f))
  let memory_stat ← readAndRewind c.memory_stat_file MemoryStat.fromReader
  let memory_usage ← readAndRewind c.memory_usage_file MemoryUsage.fromReader
  let memory_limit ← readAndRewind c.memory_limit_file (fun f => .ok (MemoryLimit.fromReader f))
  let io_stat ← readAndRewind c.io_stat_file IoStat.fromReader
  let network_stat ← readAllAndRewind c.network_stat_files (fun f => .ok (NetworkStat.fromReader f))
  pure ⟨cpu_stat, cpu_limit, memory_stat, memory_usage, memory_limit, io_stat, network_stat⟩

/-- Container ids are byte strings (`[u8]` in the Rust source). -/
abbrev Bytes := List Nat

/-- `container/utils.rs::is_lowercase_alpha_numeric` on bytes:
`is_ascii_digit || is_ascii_lowercase`. -/
def isLowercaseAlphaNumeric (src : Bytes) : Bool :=
  src.all (fun b => (48 ≤ b && b ≤ 57) || (97 ≤ b && b ≤ 122))

/-- `container/error.rs::Error`, restricted to the variants the claims
touch (the offending string carried by the Rust variant is dropped). -/
inductive ContainerError : Type
  | invalidContainerID
deriving DecidableEq

/-- `container/utils.rs::create_array_from_iter::<u8, 64>`: succeeds exactly
when the iterator yields exactly 64 items. -/
def createArrayFromIter (n : Nat) (l : Bytes) : Option Bytes :=
  if l.length = n then some l else none

/-- `ContainerID::new`: all 64 bytes must be lowercase ASCII alphanumeric.
The value of a `ContainerID` is its byte string (`as_str`/`as_raw` return
exactly these bytes). -/
def ContainerID.new (src : Bytes) : Except ContainerError Bytes :=
  if !isLowercaseAlphaNumeric src then .error .invalidContainerID else .ok src

/-- `ContainerID::from_str`: collect exactly 64 bytes, then validate. -/
def ContainerID.fromStr (s : Bytes) : Except ContainerError Bytes :=
  match createArrayFromIter 64 s with
  | none => .error .invalidContainerID
  | some bytes => ContainerID.new bytes

/-- `ContainerStatsEntry` of `cgroup/stats/mod.rs`. -/
structure ContainerStatsEntry : Type where
  timestamp : Nat
  container_id : Bytes
  stats : CgroupStats
deriving DecidableEq

/-- The registry (`Monitor` of `cgroup/monitor.rs`): a map from container id
to its `MonitoredContainer`, modelled as an association list whose values
are the containers' `Collector`s (the only part `collect_stats` uses). -/
abbrev Monitor := List (Bytes × Collector)

/-- `Monitor::remove_container`: drop the entry with the given key
(`DashMap::remove`). -/
def Monitor.removeContainer (m : Monitor) (container_id : Bytes) : Monitor :=
  m.filter (fun e => e.1 ≠ container_id)

/-- `Monitor::collect_stats`: `DashMap::retain` over all entries; a
successful `refresh_stats` pushes `ContainerStatsEntry::new(ts, id, stats)`
onto `out` and keeps the entry, a failure drops the entry (after logging)
and pushes nothing.  Returns the retained registry and the extended `out`
vector. -/
def Monitor.collectStats (timestamp : Nat) :
    Monitor → List ContainerStatsEntry → Monitor × List ContainerStatsEntry
  | [], out => ([], out)
  | (container_id, container) :: rest, out =>
    match container.refreshStats with
    | .ok stats =>
      let (m', out') :=
        Monitor.collectStats timestamp rest (out ++ [⟨timestamp, container_id, stats⟩])
      ((container_id, container) :: m', out')
    | .error _ => Monitor.collectStats timestamp rest out

/-- The `containerd.events.TaskDelete` payload (`discovery/containerd.rs`):
`id` is the exec id, `container_id` names the container. -/
structure TaskDelete : Type where
  container_id : Bytes
  id : Bytes
  pid : Nat
deriving DecidableEq

/-- The `Event::TaskDelete` arm of `events_task`: only an event whose
`exec_id` is empty and whose container id parses removes the container from
the registry; everything else leaves the registry untouched. -/
def processTaskDelete (m : Monitor) (ev : TaskDelete) : Monitor :=
  if ev.id.isEmpty then
    match ContainerID.fromStr ev.container_id with
    | .ok container_id => m.removeContainer container_id
    | .error _ => m
  else m

/-- The named fields of a `mountinfo` line (`mountinfo/parser.rs`). -/
inductive MountInfoField : Type
  | mountId
  | parentId
  | majorMinor
  | root
  | mountPoint
  | fsType
  | source
  | superOptions
deriving DecidableEq

/-- `mountinfo/parser.rs::ParseError` (the offending line carried by each
Rust variant is dropped). -/
inductive MountInfoParseError : Type
  | missingSeparator
  | missingPreSeparatorField (field : MountInfoField)
  | missingPostSeparatorField (field : MountInfoField)
deriving DecidableEq

/-- `MountInfo` of `mountinfo/parser.rs`. -/
structure MountInfo : Type where
  mount_id : Str
  parent_id : Str
  major_minor : Str
  root : Str
  mount_point : Str
  optional_fields : List Str
  fs_type : Str
  source : Str
  super_options : Str
deriving DecidableEq

/-- `parse_mount_info_line`: split at the literal `" - "`, take five
mandatory whitespace fields before it (the rest are optional fields) and
three after it, naming the first missing field in the error. -/
def parseMountInfoLine (line : Str) : Except MountInfoParseError MountInfo :=
  match splitOnceStr " - ".data line with
  | none => .error .missingSeparator
  | some (pre, post) =>
    match splitWhitespace pre with
    | [] => .error (.missingPreSeparatorField .mountId)
    | [_] => .error (.missingPreSeparatorField .parentId)
    | [_, _] => .error (.missingPreSeparatorField .majorMinor)
    | [_, _, _] => .error (.missingPreSeparatorField .root)
    | [_, _, _, _] => .error (.missingPreSeparatorField .mountPoint)
    | mount_id :: parent_id :: major_minor :: root :: mount_point :: optional_fields =>
      match splitWhitespace post with
      | [] => .error (.missingPostSeparatorField .fsType)
      | [_] => .error (.missingPostSeparatorField .source)
      | [_, _] => .error (.missingPostSeparatorField .superOptions)
      | fs_type :: source :: super_options :: _ =>
        .ok ⟨mount_id, parent_id, major_minor, root, mount_point,
             optional_fields, fs_type, source, super_options⟩

/-- `mountinfo/error.rs::Error`, restricted to the variants reachable from
a reader (the path carried by each Rust variant is environmental and
dropped). -/
inductive MountInfoError : Type
  | parse (source : MountInfoParseError)
  | missingCgroup2Mount
deriving DecidableEq

/-- `detect_cgroup2_mount_point_from_reader`: scan the lines in order; a
line that fails to parse aborts with `Error::Parse`; the first line whose
`fs_type` is `"cgroup2"` wins; reaching the end means
`Error::MissingCgroup2Mount`. -/
def detectCgroup2MountPoint : List Str → Except MountInfoError Str
  | [] => .error .missingCgroup2Mount
  | l :: rest =>
    match parseMountInfoLine l with
    | .error e => .error (.parse e)
    | .ok mi =>
      if mi.fs_type = "cgroup2".data then .ok mi.mount_point
      else detectCgroup2MountPoint rest

/-- A well-formed 64-byte container id (64 copies of `a`), used as a
concrete instantiation input. -/
def cid64ex : Bytes := List.replicate 64 97

/-- A collector with every slot absent, used as a concrete instantiation
input. -/
def collEmptyEx : Collector := ⟨none, none, none, none, none, none, []⟩

/-- A collector whose only present slot is a `cpu.max` file reading
`max 100000`, used to exercise the `"max"` sentinel. -/
def collMaxLimitEx : Collector :=
  ⟨none, some ["max 100000".data], none, none, none, none, []⟩

/-- A collector whose only present slot is a `cpu.stat` file with one line. -/
def collCpuEx : Collector :=
  ⟨some ["usage_usec 100".data], none, none, none, none, none, []⟩

/-- C1: `Monitor::collect_stats(ts, out)` calls `refresh_stats` for every registered container; a successful refresh appends exactly one `ContainerStatsEntry` carrying `ts`, that container's id and the snapshot to `out` and retains the entry, while a failed refresh appends nothing and removes the container from the registry. -/
theorem c1_thm (ts : Nat) (m : Monitor) (out : List ContainerStatsEntry) :
    Monitor.collectStats ts m out =
      (m.filter (fun e => exceptOk e.2.refreshStats),
       out ++ m.filterMap
         (fun e => (exceptToOption e.2.refreshStats).map (fun st => ⟨ts, e.1, st⟩))) := by
  induction m generalizing out with
  | nil => simp [Monitor.collectStats]
  | cons e rest ih =>
    obtain ⟨container_id, c⟩ := e
    cases hc : c.refreshStats with
    | ok st =>
      simp [Monitor.collectStats, hc, exceptOk, exceptToOption, ih]
    | error err =>
      simp [Monitor.collectStats, hc, exceptOk, exceptToOption, ih]

/-- C3 (amended): `ContainerID::from_str` succeeds exactly on strings of exactly 64 bytes, each a lowercase ASCII letter or digit, and preserves such strings unchanged; every other string -- any other length (255 bytes or not) or any other character set -- is rejected with `InvalidContainerID`.  Stated as a complete, unconditional characterisation over all byte strings. -/
theorem c3_thm (s : Bytes) :
    ContainerID.fromStr s =
      (if s.length = 64 ∧ isLowercaseAlphaNumeric s = true then .ok s
       else .error ContainerError.invalidContainerID) := by
  by_cases hlen : s.length = 64
  · by_cases halnum : isLowercaseAlphaNumeric s = true
    · simp [ContainerID.fromStr, createArrayFromIter, hlen, ContainerID.new, halnum]
    · simp [ContainerID.fromStr, createArrayFromIter, hlen, ContainerID.new, halnum]
  · simp [ContainerID.fromStr, createArrayFromIter, hlen]

/-- C3 counterexample: the claim as stated fails.  The one-byte string `a` is at most 255 bytes long, yet `ContainerID::from_str` rejects it because it is not exactly 64 bytes. -/
theorem c3_cex :
    ([97] : Bytes).length ≤ 255 ∧
      ContainerID.fromStr [97] = .error ContainerError.invalidContainerID := by
  constructor
  · decide
  · decide

/-- C8: processing a `TaskDelete` event with empty `exec_id` removes the named container from the registry (an entry survives exactly when it was present and keyed differently); a `TaskDelete` with non-empty `exec_id` leaves the registry completely unchanged. -/
theorem c8_thm :
    (∀ (m : Monitor) (ev : TaskDelete) (cid : Bytes),
        ev.id.isEmpty = true → ContainerID.fromStr ev.container_id = .ok cid →
        ∀ x, x ∈ processTaskDelete m ev ↔ (x ∈ m ∧ x.1 ≠ cid)) ∧
    (∀ (m : Monitor) (ev : TaskDelete),
        ev.id.isEmpty = false → processTaskDelete m ev = m) := by
  constructor
  · intro m ev cid hempty hparse x
    simp [processTaskDelete, hempty, hparse, Monitor.removeContainer, List.mem_filter]
  · intro m ev hne
    simp [processTaskDelete, hne]

/-- C6: `detect_cgroup2_mount_point` returns the mount point of the first line whose `fs_type` is `cgroup2`, provided the lines before it parse and are not `cgroup2`; and (amended) when every line parses and none has `fs_type = cgroup2` it returns `MissingCgroup2Mount`. -/
theorem c6_thm :
    (∀ (pre : List Str) (l : Str) (rest : List Str) (mi : MountInfo),
        (∀ l' ∈ pre, ∃ mj, parseMountInfoLine l' = .ok mj ∧ mj.fs_type ≠ "cgroup2".data) →
        parseMountInfoLine l = .ok mi → mi.fs_type = "cgroup2".data →
        detectCgroup2MountPoint (pre ++ l :: rest) = .ok mi.mount_point) ∧
    (∀ lines : List Str,
        (∀ l' ∈ lines, ∃ mj, parseMountInfoLine l' = .ok mj ∧ mj.fs_type ≠ "cgroup2".data) →
        detectCgroup2MountPoint lines = .error .missingCgroup2Mount) := by
  constructor
  · intro pre l rest mi hpre hl hfs
    induction pre with
    | nil => simp [detectCgroup2MountPoint, hl, hfs]
    | cons p ps ih =>
      obtain ⟨mj, hmj, hne⟩ := hpre p (by simp)
      have := ih (fun l' hl' => hpre l' (by simp [hl']))
      simpa [detectCgroup2MountPoint, hmj, hne] using this
  · intro lines hlines
    induction lines with
    | nil => simp [detectCgroup2MountPoint]
    | cons p ps ih =>
      obtain ⟨mj, hmj, hne⟩ := hlines p (by simp)
      have := ih (fun l' hl' => hlines l' (by simp [hl']))
      simpa [detectCgroup2MountPoint, hmj, hne] using this

/-- C6 counterexample: the claim's second half as stated fails.  An input whose single line does not parse contains no `cgroup2` line, yet the detector returns a `Parse` error, not `MissingCgroup2Mount`. -/
theorem c6_cex :
    detectCgroup2MountPoint ["invalid mountinfo line".data]
      = .error (.parse .missingSeparator) ∧
    (Except.error (MountInfoError.parse .missingSeparator) : Except MountInfoError Str)
      ≠ .error .missingCgroup2Mount := by
  constructor
  · decide
  · decide

-- Network stat algebra
theorem netAdd_def (a b : NetworkStat) :
    a + b =
      ⟨a.rx_bytes + b.rx_bytes, a.rx_packets + b.rx_packets, a.rx_errs + b.rx_errs,
       a.rx_drop + b.rx_drop, a.rx_fifo + b.rx_fifo, a.rx_frame + b.rx_frame,
       a.rx_compressed + b.rx_compressed, a.rx_multicast + b.rx_multicast,
       a.tx_bytes + b.tx_bytes, a.tx_packets + b.tx_packets, a.tx_errs + b.tx_errs,
       a.tx_drop + b.tx_drop, a.tx_fifo + b.tx_fifo, a.tx_colls + b.tx_colls,
       a.tx_carrier + b.tx_carrier, a.tx_compressed + b.tx_compressed⟩ := rfl

theorem netAdd_zero (a : NetworkStat) : a + netZero = a := by
  cases a
  simp [netAdd_def, netZero]

theorem netZero_add (a : NetworkStat) : netZero + a = a := by
  cases a
  simp [netAdd_def, netZero]

theorem netAdd_assoc (a b c : NetworkStat) : a + b + c = a + (b + c) := by
  cases a; cases b; cases c
  simp [netAdd_def, Nat.add_assoc]

theorem netFoldl_shift (l : List NetworkStat) (a b : NetworkStat) :
    l.foldl (· + ·) (a + b) = a + l.foldl (· + ·) b := by
  induction l generalizing b with
  | nil => rfl
  | cons x xs ih => simp only [List.foldl_cons, netAdd_assoc, ih]

theorem netLoop_eq (lines : List Str) (s : NetworkStat) :
    netLoop lines s = s + (lines.filterMap netSurvivingStat).foldl (· + ·) netZero := by
  induction lines generalizing s with
  | nil => simp [netLoop, netAdd_zero]
  | cons l rest ih =>
    rw [netLoop]
    cases hp : parseInterfaceLine l with
    | none =>
      simp [netSurvivingStat, hp, ih]
    | some p =>
      obtain ⟨iface, fields⟩ := p
      by_cases hig : isIgnoredInterface iface = true
      · simp [netSurvivingStat, hp, hig, ih]
      · cases hsf : statsFromFields fields with
        | none => simp [netSurvivingStat, hp, hig, hsf, ih]
        | some d =>
          simp only [netSurvivingStat, hp, hig, hsf, List.filterMap_cons, ih,
            List.foldl_cons, Bool.false_eq_true, if_false]
          rw [netZero_add, ← netAdd_zero d, netFoldl_shift, netAdd_assoc, netAdd_zero]

/-- C5: `NetworkStat::from_reader` skips the two header lines, drops every line without an interface separator, every interface whose name starts with one of `lo`, `veth`, `docker`, `nerdctl`, and every line with fewer than 16 counter fields, reads unparseable counters as 0, and returns the field-wise sum over all surviving lines (`netSpecSum` spells out exactly that reading of the claim). -/
theorem c5_thm (input : List Str) : NetworkStat.fromReader input = netSpecSum input := by
  rw [NetworkStat.fromReader, netSpecSum, netLoop_eq, netZero_add]

-- Decimal rendering round-trip
theorem digitChar_isDigit {d : Nat} (hd : d < 10) : isDigitChar (digitChar d) = true := by
  interval_cases d <;> decide

theorem digitChar_toNat {d : Nat} (hd : d < 10) : (digitChar d).toNat = 48 + d := by
  interval_cases d <;> decide

theorem digitChar_ne_plus {d : Nat} (hd : d < 10) : digitChar d ≠ '+' := by
  interval_cases d <;> decide

theorem digitChar_not_ws {d : Nat} (hd : d < 10) : isWsChar (digitChar d) = false := by
  interval_cases d <;> decide

theorem natRevDigits_lt (n : Nat) : ∀ d ∈ natRevDigits n, d < 10 := by
  induction n using Nat.strong_induction_on with
  | _ n ih =>
    match n with
    | 0 => simp [natRevDigits]
    | m + 1 =>
      rw [natRevDigits]
      intro d hd
      rcases List.mem_cons.mp hd with h | h
      · subst h; exact Nat.mod_lt _ (by norm_num)
      · exact ih ((m + 1) / 10) (Nat.div_lt_self (Nat.succ_pos m) (by norm_num)) d h

theorem parseDigitsAux_append (xs ys : Str) (acc : Nat) :
    parseDigitsAux (xs ++ ys) acc =
      match parseDigitsAux xs acc with
      | some a => parseDigitsAux ys a
      | none => none := by
  induction xs generalizing acc with
  | nil => simp [parseDigitsAux]
  | cons c cs ih =>
    by_cases hc : isDigitChar c = true
    · simp [parseDigitsAux, hc, ih]
    · simp [parseDigitsAux, hc]

theorem parseDigitsAux_natRevDigits (n : Nat) :
    ∀ acc, parseDigitsAux ((natRevDigits n).reverse.map digitChar) acc =
      some (acc * 10 ^ (natRevDigits n).length + n) := by
  induction n using Nat.strong_induction_on with
  | _ n ih =>
    intro acc
    match n with
    | 0 => simp [natRevDigits, parseDigitsAux]
    | m + 1 =>
      rw [natRevDigits]
      have hdiv : (m + 1) / 10 < m + 1 := Nat.div_lt_self (Nat.succ_pos m) (by norm_num)
      have hmod : (m + 1) % 10 < 10 := Nat.mod_lt _ (by norm_num)
      simp only [List.reverse_cons, List.map_append, List.map_cons, List.map_nil]
      rw [parseDigitsAux_append, ih ((m + 1) / 10) hdiv acc]
      simp only [parseDigitsAux, digitChar_isDigit hmod, if_true, digitChar_toNat hmod,
        List.length_cons]
      have hqr : 10 * ((m + 1) / 10) + (m + 1) % 10 = m + 1 := Nat.div_add_mod (m + 1) 10
      congr 1
      rw [pow_succ, ← Nat.mul_assoc]
      omega

theorem natRepr_all_digits (n : Nat) : ∀ c ∈ natRepr n, isDigitChar c = true := by
  intro c hc
  rw [natRepr] at hc
  by_cases hn : n = 0
  · simp [hn] at hc
    subst hc; decide
  · simp only [hn, if_false, List.mem_map, List.mem_reverse] at hc
    obtain ⟨d, hd, rfl⟩ := hc
    exact digitChar_isDigit (natRevDigits_lt n d hd)

theorem natRepr_ne_nil (n : Nat) : natRepr n ≠ [] := by
  rw [natRepr]
  by_cases hn : n = 0
  · simp [hn]
  · simp only [hn, if_false]
    match m : n with
    | 0 => exact absurd rfl hn
    | m + 1 =>
      rw [natRevDigits]
      simp

theorem parseU64_natRepr {n : Nat} (hn : n < 2 ^ 64) : parseU64 (natRepr n) = some n := by
  by_cases h0 : n = 0
  · subst h0; decide
  · have hne := natRepr_ne_nil n
    have hdig := natRepr_all_digits n
    rw [parseU64]
    have hstrip : stripPlus (natRepr n) = natRepr n := by
      cases hr : natRepr n with
      | nil => exact absurd hr hne
      | cons c cs =>
        have hc : isDigitChar c = true := hdig c (by rw [hr]; simp)
        have : c ≠ '+' := by
          intro hplus
          rw [hplus] at hc
          exact absurd hc (by decide)
        simp [stripPlus, this]
    rw [hstrip]
    have hval : parseDigitsAux (natRepr n) 0 = some n := by
      rw [natRepr]
      simp only [h0, if_false]
      rw [parseDigitsAux_natRevDigits n 0]
      simp
    cases hr : natRepr n with
    | nil => exact absurd hr hne
    | cons c cs =>
      rw [hr] at hval
      have h64 : (2 : Nat) ^ 64 = 18446744073709551616 := by norm_num
      rw [h64] at hn
      simp [hval, hn]

theorem digit_not_ws {c : Char} (hc : isDigitChar c = true) : isWsChar c = false := by
  simp only [isDigitChar, Bool.and_eq_true, decide_eq_true_eq] at hc
  simp only [isWsChar, Bool.or_eq_false_iff, decide_eq_false_iff_not]
  omega

theorem splitWsAux_no_ws (t : Str) (hw : ∀ c ∈ t, isWsChar c = false) :
    ∀ rest acc, splitWsAux (t ++ rest) acc = splitWsAux rest (t.reverse ++ acc) := by
  induction t with
  | nil => simp
  | cons c cs ih =>
    intro rest acc
    have hc : isWsChar c = false := hw c (by simp)
    rw [List.cons_append, splitWsAux]
    simp only [hc, Bool.false_eq_true, if_false]
    rw [ih (fun x hx => hw x (by simp [hx])) rest (c :: acc)]
    simp

theorem splitWs_two_tokens (t1 t2 : Str) (h1 : t1 ≠ []) (h2 : t2 ≠ [])
    (hw1 : ∀ c ∈ t1, isWsChar c = false) (hw2 : ∀ c ∈ t2, isWsChar c = false) :
    splitWhitespace (t1 ++ ' ' :: (t2 ++ ['\n'])) = [t1, t2] := by
  rw [splitWhitespace, splitWsAux_no_ws t1 hw1]
  rw [List.append_nil, splitWsAux]
  have hsp : isWsChar ' ' = true := by decide
  have hne1 : (t1.reverse).isEmpty = false := by
    simp [List.isEmpty_iff, h1]
  simp only [hsp, if_true, hne1, Bool.false_eq_true, if_false, List.reverse_reverse]
  rw [splitWsAux_no_ws t2 hw2 ['\n'] [], List.append_nil, splitWsAux]
  have hnl : isWsChar '\n' = true := by decide
  have hne2 : (t2.reverse).isEmpty = false := by
    simp [List.isEmpty_iff, h2]
  simp only [hnl, if_true, hne2, Bool.false_eq_true, if_false, List.reverse_reverse]
  rfl

theorem natRepr_ne_max (n : Nat) : natRepr n ≠ "max".data := by
  intro h
  have hm : 'm' ∈ natRepr n := by rw [h]; decide
  have := natRepr_all_digits n 'm' hm
  exact absurd this (by decide)

/-- C7: `CpuLimit` parsing round-trips: for every `q` and `p` in `u64` range, parsing the line `"{q} {p}\n"` yields `quota = Some(q)` and `period = p`; an entirely empty input yields `quota = None` and `period = 100000`. -/
theorem c7_thm :
    (∀ q p : Nat, q < 2 ^ 64 → p < 2 ^ 64 →
        CpuLimit.fromReader [natRepr q ++ ' ' :: (natRepr p ++ ['\n'])] = ⟨some q, p⟩) ∧
    CpuLimit.fromReader [] = ⟨none, defaultPeriod⟩ := by
  constructor
  · intro q p hq hp
    have hsplit := splitWs_two_tokens (natRepr q) (natRepr p) (natRepr_ne_nil q)
      (natRepr_ne_nil p)
      (fun c hc => digit_not_ws (natRepr_all_digits q c hc))
      (fun c hc => digit_not_ws (natRepr_all_digits p c hc))
    rw [CpuLimit.fromReader]
    simp only [List.headD_cons, hsplit, List.headD_cons, natRepr_ne_max q,
      if_false, parseU64_natRepr hq]
    simp [List.get?, parseU64_natRepr hp]
  · decide

theorem runLinesAux_append {σ : Type} (cfg : KVConfig)
    (handlers : List (Str × (σ → Nat → σ))) (pre rest : List Str) :
    ∀ (n : Nat) (s : σ) (seen : List Str),
      runLinesAux cfg handlers (pre ++ rest) n s seen =
        match runLinesAux cfg handlers pre n s seen with
        | .error e => .error e
        | .ok (s', sn', true) => .ok (s', sn', true)
        | .ok (s', sn', false) => runLinesAux cfg handlers rest (n + pre.length) s' sn' := by
  induction pre with
  | nil =>
    intro n s seen
    simp [runLinesAux]
  | cons l ls ih =>
    intro n s seen
    rw [List.cons_append, runLinesAux, runLinesAux]
    cases hpl : parseLine cfg handlers l n s seen with
    | error e => rfl
    | ok p =>
      obtain ⟨s', sn'⟩ := p
      by_cases hbr : (!cfg.allowDuplicateKeys && sn'.length == handlers.length) = true
      · simp only [hbr, if_true]
      · simp only [hbr, Bool.false_eq_true, if_false]
        rw [ih (n + 1) s' sn']
        have harith : n + 1 + ls.length = n + (ls.length + 1) := by omega
        simp only [List.length_cons, harith]

theorem flatDup {σ : Type} [Inhabited σ] (cfg : KVConfig)
    (handlers : List (Str × (σ → Nat → σ)))
    (hsc : cfg.splitChar = none) (hsl : cfg.skipLines = 0) (hsv : cfg.skipValues = 0)
    (had : cfg.allowDuplicateKeys = false)
    (pre : List Str) (s0 : σ) (seen0 : List Str)
    (hrun : runLinesAux cfg handlers pre 1 default [] = .ok (s0, seen0, false))
    (L k v : Str) (ts : List Str) (hL : splitWhitespace L = k :: v :: ts)
    (hrec : (List.lookup k handlers).isSome = true) (hseen : k ∈ seen0)
    (n : Nat) (hval : parseU64 v = some n) (rest : List Str) :
    kvFromReader cfg handlers (pre ++ L :: rest)
      = .error (.duplicateField k (pre.length + 1)) := by
  obtain ⟨h, hh⟩ := Option.isSome_iff_exists.mp hrec
  have hpl : parseLine cfg handlers L (1 + pre.length) s0 seen0
      = .error (.duplicateField k (1 + pre.length)) := by
    rw [parseLine]
    simp only [hsv, List.drop_zero, hL, hsc]
    rw [parseFlatPairs]
    simp only [parseAndSet, hh, hval, had, Bool.not_false, Bool.true_and,
      decide_eq_true_eq, hseen, if_true]
    rfl
  have hmain : runLinesAux cfg handlers (L :: rest) (1 + pre.length) s0 seen0
      = .error (.duplicateField k (1 + pre.length)) := by
    rw [runLinesAux, hpl]
  rw [kvFromReader, hsl, List.drop_zero, runLinesAux_append, hrun]
  show (runLinesAux cfg handlers (L :: rest) (1 + pre.length) s0 seen0).map (·.1) = _
  rw [hmain]
  show Except.error _ = _
  rw [Nat.add_comm]

theorem flatInvalid {σ : Type} [Inhabited σ] (cfg : KVConfig)
    (handlers : List (Str × (σ → Nat → σ)))
    (hsc : cfg.splitChar = none) (hsl : cfg.skipLines = 0) (hsv : cfg.skipValues = 0)
    (pre : List Str) (s0 : σ) (seen0 : List Str)
    (hrun : runLinesAux cfg handlers pre 1 default [] = .ok (s0, seen0, false))
    (L k v : Str) (ts : List Str) (hL : splitWhitespace L = k :: v :: ts)
    (hrec : (List.lookup k handlers).isSome = true) (_hseen : k ∈ seen0)
    (hval : parseU64 v = none) (rest : List Str) :
    kvFromReader cfg handlers (pre ++ L :: rest)
      = .error (.invalidKeyValue k v (pre.length + 1)) := by
  obtain ⟨h, hh⟩ := Option.isSome_iff_exists.mp hrec
  have hpl : parseLine cfg handlers L (1 + pre.length) s0 seen0
      = .error (.invalidKeyValue k v (1 + pre.length)) := by
    rw [parseLine]
    simp only [hsv, List.drop_zero, hL, hsc]
    rw [parseFlatPairs]
    simp only [parseAndSet, hh, hval]
    rfl
  have hmain : runLinesAux cfg handlers (L :: rest) (1 + pre.length) s0 seen0
      = .error (.invalidKeyValue k v (1 + pre.length)) := by
    rw [runLinesAux, hpl]
  rw [kvFromReader, hsl, List.drop_zero, runLinesAux_append, hrun]
  show (runLinesAux cfg handlers (L :: rest) (1 + pre.length) s0 seen0).map (·.1) = _
  rw [hmain]
  show Except.error _ = _
  rw [Nat.add_comm]

/-- C2 (amended): for the parsers with `allow_duplicate_keys = false` (`CpuStat` and `MemoryStat`), whenever the parser reaches a second occurrence of a recognized key -- the preceding lines parse without error and without triggering the all-keys-seen early stop, and the occurrence is the first key/value pair of its line with a value that parses as `u64` -- `from_reader` returns `DuplicateField` naming that key and the 1-based line number of that occurrence. -/
theorem c2_thm :
    (∀ (pre : List Str) (s0 : CpuStat) (seen0 : List Str) (L k v : Str) (ts : List Str)
        (n : Nat) (rest : List Str),
        runLinesAux cpuCfg cpuHandlers pre 1 default [] = .ok (s0, seen0, false) →
        splitWhitespace L = k :: v :: ts →
        (List.lookup k cpuHandlers).isSome = true → k ∈ seen0 →
        parseU64 v = some n →
        CpuStat.fromReader (pre ++ L :: rest)
          = .error (.duplicateField k (pre.length + 1))) ∧
    (∀ (pre : List Str) (s0 : MemoryStat) (seen0 : List Str) (L k v : Str) (ts : List Str)
        (n : Nat) (rest : List Str),
        runLinesAux memoryCfg memoryHandlers pre 1 default [] = .ok (s0, seen0, false) →
        splitWhitespace L = k :: v :: ts →
        (List.lookup k memoryHandlers).isSome = true → k ∈ seen0 →
        parseU64 v = some n →
        MemoryStat.fromReader (pre ++ L :: rest)
          = .error (.duplicateField k (pre.length + 1))) := by
  constructor
  · intro pre s0 seen0 L k v ts n rest hrun hL hrec hseen hval
    exact flatDup cpuCfg cpuHandlers rfl rfl rfl rfl pre s0 seen0 hrun L k v ts hL hrec
      hseen n hval rest
  · intro pre s0 seen0 L k v ts n rest hrun hL hrec hseen hval
    exact flatDup memoryCfg memoryHandlers rfl rfl rfl rfl pre s0 seen0 hrun L k v ts hL
      hrec hseen n hval rest

/-- Witness for C2 at a concrete input: `usage_usec` repeated on line 2. -/
theorem c2_witness :
    CpuStat.fromReader (["usage_usec 1".data] ++ "usage_usec 2".data :: [])
      = .error (.duplicateField "usage_usec".data 2) :=
  c2_thm.1 ["usage_usec 1".data] ⟨1, 0, 0, 0, 0, 0, 0, 0⟩ ["usage_usec".data]
    "usage_usec 2".data "usage_usec".data "2".data [] 2 []
    (by decide) (by decide) (by decide) (by decide) (by decide)

/-- C2 counterexample: the claim as stated fails, because `from_reader` stops reading once every recognized key has been seen.  Here all eight `CpuStat` keys appear on lines 1-8, so the ninth line repeating `usage_usec` is never examined and the parse returns `Ok` instead of the `DuplicateField` error the claim requires. -/
theorem c2_cex :
    CpuStat.fromReader
      ["usage_usec 1".data, "user_usec 2".data, "system_usec 3".data, "nr_periods 4".data,
       "nr_throttled 5".data, "throttled_usec 6".data, "nr_bursts 7".data,
       "burst_usec 8".data, "usage_usec 9".data]
      = .ok ⟨1, 2, 3, 4, 5, 6, 7, 8⟩ := by decide

/-- C10 (amended): the key/value parser parses a value before the duplicate-key check: for the parsers with `allow_duplicate_keys = false`, whenever the parser reaches a second occurrence of a recognized key whose value is not a valid `u64`, `from_reader` returns `InvalidKeyValue` naming that key and value, not `DuplicateField`. -/
theorem c10_thm :
    (∀ (pre : List Str) (s0 : CpuStat) (seen0 : List Str) (L k v : Str) (ts : List Str)
        (rest : List Str),
        runLinesAux cpuCfg cpuHandlers pre 1 default [] = .ok (s0, seen0, false) →
        splitWhitespace L = k :: v :: ts →
        (List.lookup k cpuHandlers).isSome = true → k ∈ seen0 →
        parseU64 v = none →
        CpuStat.fromReader (pre ++ L :: rest)
          = .error (.invalidKeyValue k v (pre.length + 1))) ∧
    (∀ (pre : List Str) (s0 : MemoryStat) (seen0 : List Str) (L k v : Str) (ts : List Str)
        (rest : List Str),
        runLinesAux memoryCfg memoryHandlers pre 1 default [] = .ok (s0, seen0, false) →
        splitWhitespace L = k :: v :: ts →
        (List.lookup k memoryHandlers).isSome = true → k ∈ seen0 →
        parseU64 v = none →
        MemoryStat.fromReader (pre ++ L :: rest)
          = .error (.invalidKeyValue k v (pre.length + 1))) := by
  constructor
  · intro pre s0 seen0 L k v ts rest hrun hL hrec hseen hval
    exact flatInvalid cpuCfg cpuHandlers rfl rfl rfl pre s0 seen0 hrun L k v ts hL hrec
      hseen hval rest
  · intro pre s0 seen0 L k v ts rest hrun hL hrec hseen hval
    exact flatInvalid memoryCfg memoryHandlers rfl rfl rfl pre s0 seen0 hrun L k v ts hL
      hrec hseen hval rest

/-- Witness for C10 at a concrete input: a second `usage_usec` with value `abc` on line 2. -/
theorem c10_witness :
    CpuStat.fromReader (["usage_usec 1".data] ++ "usage_usec abc".data :: [])
      = .error (.invalidKeyValue "usage_usec".data "abc".data 2) :=
  c10_thm.1 ["usage_usec 1".data] ⟨1, 0, 0, 0, 0, 0, 0, 0⟩ ["usage_usec".data]
    "usage_usec abc".data "usage_usec".data "abc".data [] []
    (by decide) (by decide) (by decide) (by decide) (by decide)

/-- C10 counterexample: the claim as stated fails, because `from_reader` stops reading once every recognized key has been seen.  Here all eight `CpuStat` keys appear on lines 1-8, so the ninth line repeating `usage_usec` with the invalid value `abc` is never examined and the parse returns `Ok` instead of the `InvalidKeyValue` error the claim requires. -/
theorem c10_cex :
    CpuStat.fromReader
      ["usage_usec 1".data, "user_usec 2".data, "system_usec 3".data, "nr_periods 4".data,
       "nr_throttled 5".data, "throttled_usec 6".data, "nr_bursts 7".data,
       "burst_usec 8".data, "usage_usec abc".data]
      = .ok ⟨1, 2, 3, 4, 5, 6, 7, 8⟩ := by decide

theorem ioAdd_def (a b : IoStat) :
    a + b = ⟨a.rbytes + b.rbytes, a.wbytes + b.wbytes, a.rios + b.rios, a.wios + b.wios⟩ := rfl

theorem ioAdd_zero (a : IoStat) : a + (default : IoStat) = a := by
  cases a
  simp [ioAdd_def, default]

theorem ioHandler_shift (k : Str) (f : IoStat → Nat → IoStat)
    (hf : List.lookup k ioHandlers = some f) (a b : IoStat) (v : Nat) :
    f (a + b) v = a + f b v := by
  by_cases h1 : (k == "rbytes".data) = true
  · simp only [ioHandlers, List.lookup, h1] at hf
    injection hf with hf
    subst hf
    cases a; cases b
    simp [ioAdd_def, Nat.add_assoc]
  · by_cases h2 : (k == "wbytes".data) = true
    · simp only [ioHandlers, List.lookup, h1, h2] at hf
      injection hf with hf
      subst hf
      cases a; cases b
      simp [ioAdd_def, Nat.add_assoc]
    · by_cases h3 : (k == "rios".data) = true
      · simp only [ioHandlers, List.lookup, h1, h2, h3] at hf
        injection hf with hf
        subst hf
        cases a; cases b
        simp [ioAdd_def, Nat.add_assoc]
      · by_cases h4 : (k == "wios".data) = true
        · simp only [ioHandlers, List.lookup, h1, h2, h3, h4] at hf
          injection hf with hf
          subst hf
          cases a; cases b
          simp [ioAdd_def, Nat.add_assoc]
        · simp only [ioHandlers, List.lookup, h1, h2, h3, h4] at hf
          exact Option.noConfusion hf

theorem ioParseAndSet_shift (k v : Str) (b : IoStat) (m : Nat) (t : IoStat) (sn : List Str)
    (h : parseAndSet ioCfg ioHandlers k v b m [] = .ok (t, sn)) :
    sn = [] ∧
      ∀ (a : IoStat) (n : Nat),
        parseAndSet ioCfg ioHandlers k v (a + b) n [] = .ok (a + t, []) := by
  simp only [parseAndSet] at h
  cases hl : List.lookup k ioHandlers with
  | none =>
    rw [hl] at h
    replace h : Except.ok ((b, ([] : List Str))) = Except.ok (t, sn) := h
    injection h with h
    injection h with h1 h2
    subst h1
    subst h2
    refine ⟨rfl, fun a n => ?_⟩
    simp only [parseAndSet]
    rw [hl]
  | some f =>
    rw [hl] at h
    cases hv : parseU64 v with
    | none =>
      rw [hv] at h
      replace h : (Except.error (StatParseError.invalidKeyValue k v m) :
          Except StatParseError (IoStat × List Str)) = Except.ok (t, sn) := h
      cases h
    | some pv =>
      rw [hv] at h
      replace h : Except.ok ((f b pv, ([] : List Str))) = Except.ok (t, sn) := h
      injection h with h
      injection h with h1 h2
      subst h1
      subst h2
      refine ⟨rfl, fun a n => ?_⟩
      simp only [parseAndSet]
      rw [hl, hv]
      show Except.ok ((f (a + b) pv, ([] : List Str))) = Except.ok (a + f b pv, [])
      rw [ioHandler_shift k f hl a b pv]

theorem ioSplitPairs_shift :
    ∀ (tokens : List Str) (b : IoStat) (m : Nat) (t : IoStat) (sn : List Str),
      parseSplitPairs ioCfg ioHandlers '=' tokens b m [] = .ok (t, sn) →
      sn = [] ∧
        ∀ (a : IoStat) (n : Nat),
          parseSplitPairs ioCfg ioHandlers '=' tokens (a + b) n [] = .ok (a + t, []) := by
  intro tokens
  induction tokens with
  | nil =>
    intro b m t sn h
    replace h : Except.ok ((b, ([] : List Str))) = Except.ok (t, sn) := h
    injection h with h
    injection h with h1 h2
    subst h1
    subst h2
    exact ⟨rfl, fun a n => rfl⟩
  | cons tok rest ih =>
    intro b m t sn h
    cases hso : splitOnceChar '=' tok with
    | none =>
      rw [parseSplitPairs, hso] at h
      replace h : parseSplitPairs ioCfg ioHandlers '=' rest b m [] = Except.ok (t, sn) := h
      obtain ⟨hsn, hshift⟩ := ih b m t sn h
      refine ⟨hsn, fun a n => ?_⟩
      rw [parseSplitPairs, hso]
      show parseSplitPairs ioCfg ioHandlers '=' rest (a + b) n [] = Except.ok (a + t, [])
      exact hshift a n
    | some p =>
      obtain ⟨key, val⟩ := p
      rw [parseSplitPairs, hso] at h
      cases hpas : parseAndSet ioCfg ioHandlers key val b m [] with
      | error e =>
        replace h : (Except.bind (parseAndSet ioCfg ioHandlers key val b m [])
            (fun q =>
              if ioCfg.allowMultipleKVPerLine then
                parseSplitPairs ioCfg ioHandlers '=' rest q.1 m q.2
              else pure q) : Except StatParseError (IoStat × List Str))
            = Except.ok (t, sn) := h
        rw [hpas] at h
        replace h : (Except.error e : Except StatParseError (IoStat × List Str))
            = Except.ok (t, sn) := h
        cases h
      | ok q =>
        obtain ⟨s1, sn1⟩ := q
        obtain ⟨hsn1, hpshift⟩ := ioParseAndSet_shift key val b m s1 sn1 hpas
        subst hsn1
        replace h : (Except.bind (parseAndSet ioCfg ioHandlers key val b m [])
            (fun q =>
              if ioCfg.allowMultipleKVPerLine then
                parseSplitPairs ioCfg ioHandlers '=' rest q.1 m q.2
              else pure q) : Except StatParseError (IoStat × List Str))
            = Except.ok (t, sn) := h
        rw [hpas] at h
        replace h : parseSplitPairs ioCfg ioHandlers '=' rest s1 m [] = Except.ok (t, sn) := h
        obtain ⟨hsn, hshift⟩ := ih s1 m t sn h
        refine ⟨hsn, fun a n => ?_⟩
        rw [parseSplitPairs, hso]
        show (Except.bind (parseAndSet ioCfg ioHandlers key val (a + b) n [])
            (fun q =>
              if ioCfg.allowMultipleKVPerLine then
                parseSplitPairs ioCfg ioHandlers '=' rest q.1 n q.2
              else pure q) : Except StatParseError (IoStat × List Str))
            = Except.ok (a + t, [])
        rw [hpshift a n]
        show parseSplitPairs ioCfg ioHandlers '=' rest (a + s1) n [] = Except.ok (a + t, [])
        exact hshift a n

theorem ioRun_shift :
    ∀ (lines : List Str) (b : IoStat) (m : Nat) (t : IoStat) (sn : List Str) (br : Bool),
      runLinesAux ioCfg ioHandlers lines m b [] = .ok (t, sn, br) →
      sn = [] ∧ br = false ∧
        ∀ (a : IoStat) (n : Nat),
          runLinesAux ioCfg ioHandlers lines n (a + b) [] = .ok (a + t, [], false) := by
  intro lines
  induction lines with
  | nil =>
    intro b m t sn br h
    replace h : Except.ok ((b, ([] : List Str), false)) = Except.ok (t, sn, br) := h
    injection h with h
    injection h with h1 h
    injection h with h2 h3
    subst h1
    subst h2
    subst h3
    exact ⟨rfl, rfl, fun a n => rfl⟩
  | cons l rest ih =>
    intro b m t sn br h
    rw [runLinesAux] at h
    cases hple : parseLine ioCfg ioHandlers l m b [] with
    | error e =>
      rw [hple] at h
      replace h : (Except.error e : Except StatParseError (IoStat × List Str × Bool))
          = Except.ok (t, sn, br) := h
      cases h
    | ok q =>
      obtain ⟨s1, sn1⟩ := q
      have hple2 : parseSplitPairs ioCfg ioHandlers '='
          ((splitWhitespace l).drop 1) b m [] = .ok (s1, sn1) := hple
      obtain ⟨hsn1, hlshift⟩ :=
        ioSplitPairs_shift ((splitWhitespace l).drop 1) b m s1 sn1 hple2
      subst hsn1
      rw [hple] at h
      replace h : runLinesAux ioCfg ioHandlers rest (m + 1) s1 [] = Except.ok (t, sn, br) := h
      obtain ⟨hsn, hbr, hshift⟩ := ih s1 (m + 1) t sn br h
      refine ⟨hsn, hbr, fun a n => ?_⟩
      rw [runLinesAux]
      have hplA : parseLine ioCfg ioHandlers l n (a + b) [] = .ok (a + s1, []) :=
        hlshift a n
      rw [hplA]
      show runLinesAux ioCfg ioHandlers rest (n + 1) (a + s1) [] = Except.ok (a + t, [], false)
      exact hshift a (n + 1)

/-- C4: `IoStat` parsing is linear: when inputs `A` and `B` each parse successfully, parsing the concatenation `A ++ B` yields, in each of the four fields `rbytes`, `wbytes`, `rios`, `wios`, the sum of the corresponding fields of the two separate parses. -/
theorem c4_thm (A B : List Str) (a b : IoStat)
    (hA : IoStat.fromReader A = .ok a) (hB : IoStat.fromReader B = .ok b) :
    IoStat.fromReader (A ++ B)
      = .ok ⟨a.rbytes + b.rbytes, a.wbytes + b.wbytes, a.rios + b.rios, a.wios + b.wios⟩ := by
  replace hA : (runLinesAux ioCfg ioHandlers A 1 default []).map (·.1) = Except.ok a := hA
  replace hB : (runLinesAux ioCfg ioHandlers B 1 default []).map (·.1) = Except.ok b := hB
  show (runLinesAux ioCfg ioHandlers (A ++ B) 1 default []).map (·.1) = _
  cases hra : runLinesAux ioCfg ioHandlers A 1 default [] with
  | error e => rw [hra] at hA; cases hA
  | ok p =>
    obtain ⟨pa, sna, bra⟩ := p
    rw [hra] at hA
    replace hA : Except.ok pa = Except.ok a := hA
    injection hA with hA
    subst hA
    obtain ⟨hsna, hbra, _⟩ := ioRun_shift A default 1 pa sna bra hra
    subst hsna
    subst hbra
    cases hrb : runLinesAux ioCfg ioHandlers B 1 default [] with
    | error e => rw [hrb] at hB; cases hB
    | ok q =>
      obtain ⟨pb, snb, brb⟩ := q
      rw [hrb] at hB
      replace hB : Except.ok pb = Except.ok b := hB
      injection hB with hB
      subst hB
      obtain ⟨hsnb, hbrb, hshiftB⟩ := ioRun_shift B default 1 pb snb brb hrb
      subst hsnb
      subst hbrb
      rw [runLinesAux_append, hra]
      show (runLinesAux ioCfg ioHandlers B (1 + A.length) pa []).map (·.1) = _
      have hpa : pa = pa + (default : IoStat) := (ioAdd_zero pa).symm
      rw [hpa, hshiftB pa (1 + A.length)]
      rfl

theorem exceptBind_ok {ε α β : Type} (x : Except ε α) (f : α → Except ε β) (b : β)
    (h : x >>= f = .ok b) : ∃ a, x = .ok a ∧ f a = .ok b := by
  cases x with
  | ok a => exact ⟨a, rfl, h⟩
  | error e => exact Except.noConfusion (h : (Except.error e : Except ε β) = .ok b)

theorem readAndRewind_none_iff {T : Type} (file : Option (List Str))
    (reader : List Str → Except StatParseError T) (v : Option T)
    (h : readAndRewind file reader = .ok v) : v = none ↔ file = none := by
  cases file with
  | none =>
    replace h : Except.ok (none : Option T) = .ok v := h
    injection h with h
    subst h
    simp
  | some f =>
    cases hr : reader f with
    | error e =>
      replace h : (reader f).map some = .ok v := h
      rw [hr] at h
      replace h : (Except.error e : Except StatParseError (Option T)) = .ok v := h
      cases h
    | ok r =>
      replace h : (reader f).map some = .ok v := h
      rw [hr] at h
      replace h : Except.ok (some r) = .ok v := h
      injection h with h
      subst h
      simp

theorem readAllAndRewind_none_iff {T : Type} [Add T] [Inhabited T]
    (files : List (List Str)) (reader : List Str → Except StatParseError T) (v : Option T)
    (h : readAllAndRewind files reader = .ok v) : v = none ↔ files = [] := by
  by_cases he : files.isEmpty = true
  · have hfe : files = [] := List.isEmpty_iff.mp he
    subst hfe
    replace h : Except.ok (none : Option T) = .ok v := h
    injection h with h
    subst h
    simp
  · have hfe : files ≠ [] := fun hc => he (by simp [hc])
    rw [readAllAndRewind] at h
    simp only [he, Bool.false_eq_true, if_false] at h
    cases hfold : List.foldlM (fun acc f => (reader f).map (fun v => acc + v)) default files with
    | error e =>
      rw [hfold] at h
      replace h : (Except.error e : Except StatParseError (Option T)) = .ok v := h
      cases h
    | ok s =>
      rw [hfold] at h
      replace h : Except.ok (some s) = .ok v := h
      injection h with h
      subst h
      simp [hfe]

/-- C9 (amended): for every successful `refresh_stats`, a field of the produced `CgroupStats` is `None` exactly when the corresponding source file was not available (the handle slot is absent, or the network file list is empty); the `max` sentinel does not make the `CgroupStats` field `None`. -/
theorem c9_thm (c : Collector) (st : CgroupStats) (h : c.refreshStats = .ok st) :
    (st.cpu_stat = none ↔ c.cpu_stat_file = none) ∧
    (st.cpu_limit = none ↔ c.cpu_limit_file = none) ∧
    (st.memory_stat = none ↔ c.memory_stat_file = none) ∧
    (st.memory_usage = none ↔ c.memory_usage_file = none) ∧
    (st.memory_limit = none ↔ c.memory_limit_file = none) ∧
    (st.io_stat = none ↔ c.io_stat_file = none) ∧
    (st.network_stat = none ↔ c.network_stat_files = []) := by
  simp only [Collector.refreshStats] at h
  obtain ⟨v1, h1, h⟩ := exceptBind_ok _ _ _ h
  obtain ⟨v2, h2, h⟩ := exceptBind_ok _ _ _ h
  obtain ⟨v3, h3, h⟩ := exceptBind_ok _ _ _ h
  obtain ⟨v4, h4, h⟩ := exceptBind_ok _ _ _ h
  obtain ⟨v5, h5, h⟩ := exceptBind_ok _ _ _ h
  obtain ⟨v6, h6, h⟩ := exceptBind_ok _ _ _ h
  obtain ⟨v7, h7, h⟩ := exceptBind_ok _ _ _ h
  replace h : Except.ok (CgroupStats.mk v1 v2 v3 v4 v5 v6 v7) = .ok st := h
  injection h with h
  subst h
  exact ⟨readAndRewind_none_iff _ _ _ h1, readAndRewind_none_iff _ _ _ h2,
    readAndRewind_none_iff _ _ _ h3, readAndRewind_none_iff _ _ _ h4,
    readAndRewind_none_iff _ _ _ h5, readAndRewind_none_iff _ _ _ h6,
    readAllAndRewind_none_iff _ _ _ h7⟩

/-- Witness for C9 at a concrete collector with only `cpu.stat` present. -/
theorem c9_witness :
    ((some (CpuStat.mk 100 0 0 0 0 0 0 0) : Option CpuStat) = none
        ↔ collCpuEx.cpu_stat_file = none) ∧
    ((none : Option CpuLimit) = none ↔ collCpuEx.cpu_limit_file = none) ∧
    ((none : Option MemoryStat) = none ↔ collCpuEx.memory_stat_file = none) ∧
    ((none : Option MemoryUsage) = none ↔ collCpuEx.memory_usage_file = none) ∧
    ((none : Option MemoryLimit) = none ↔ collCpuEx.memory_limit_file = none) ∧
    ((none : Option IoStat) = none ↔ collCpuEx.io_stat_file = none) ∧
    ((none : Option NetworkStat) = none ↔ collCpuEx.network_stat_files = []) :=
  c9_thm collCpuEx ⟨some ⟨100, 0, 0, 0, 0, 0, 0, 0⟩, none, none, none, none, none, none⟩
    (by decide)

/-- C9 counterexample: the claim as stated fails for the limit files.  A collector whose `cpu.max` file reads `max 100000` produces a snapshot whose `cpu_limit` field is `Some` (with the nested quota `None`), although the claim's `or the value is the max sentinel` disjunct requires the field to be `None`. -/
theorem c9_cex :
    collMaxLimitEx.refreshStats
      = .ok ⟨none, some ⟨none, 100000⟩, none, none, none, none, none⟩ ∧
    (some (CpuLimit.mk none 100000) : Option CpuLimit) ≠ none := by
  constructor
  · decide
  · decide

/-- Witness for C4 at concrete inputs: two single-device `io.stat` lines. -/
theorem c4_witness :
    IoStat.fromReader
        (["8:0 rbytes=1024 wbytes=2048 rios=12 wios=24".data]
          ++ ["254:0 rbytes=1 wbytes=2 rios=3 wios=4".data])
      = .ok ⟨1025, 2050, 15, 28⟩ :=
  c4_thm _ _ ⟨1024, 2048, 12, 24⟩ ⟨1, 2, 3, 4⟩ (by decide) (by decide)

/-- Witness for C6 at concrete inputs: the first of two `cgroup2` mounts wins, and a `proc`-only table reports `MissingCgroup2Mount`. -/
theorem c6_witness :
    detectCgroup2MountPoint
        ["42 35 0:39 / /sys/fs/cgroup rw - cgroup2 cgroup rw".data,
         "43 35 0:39 / /ignored rw - cgroup2 cgroup rw".data]
      = .ok "/sys/fs/cgroup".data ∧
    detectCgroup2MountPoint ["25 1 0:24 / /proc rw,relatime - proc proc rw".data]
      = .error .missingCgroup2Mount := by
  constructor
  · exact c6_thm.1 [] "42 35 0:39 / /sys/fs/cgroup rw - cgroup2 cgroup rw".data
      ["43 35 0:39 / /ignored rw - cgroup2 cgroup rw".data]
      ⟨"42".data, "35".data, "0:39".data, "/".data, "/sys/fs/cgroup".data, ["rw".data],
       "cgroup2".data, "cgroup".data, "rw".data⟩
      (fun l' h => absurd h (List.not_mem_nil l'))
      (by decide) (by decide)
  · refine c6_thm.2 _ ?_
    intro l' hl'
    rw [List.mem_singleton] at hl'
    subst hl'
    exact ⟨⟨"25".data, "1".data, "0:24".data, "/".data, "/proc".data, ["rw,relatime".data],
      "proc".data, "proc".data, "rw".data⟩, by decide, by decide⟩

/-- Witness for C7 at concrete values: `q = 50000`, `p = 100000`. -/
theorem c7_witness :
    CpuLimit.fromReader [natRepr 50000 ++ ' ' :: (natRepr 100000 ++ ['\n'])]
      = ⟨some 50000, 100000⟩ :=
  c7_thm.1 50000 100000 (by norm_num) (by norm_num)

/-- Witness for C8 at a concrete registry: deletion with empty `exec_id` versus no-op with non-empty `exec_id`. -/
theorem c8_witness :
    ((cid64ex, collEmptyEx) ∈
        processTaskDelete [(cid64ex, collEmptyEx)] ⟨cid64ex, [], 0⟩
      ↔ ((cid64ex, collEmptyEx) ∈ [(cid64ex, collEmptyEx)] ∧ cid64ex ≠ cid64ex)) ∧
    processTaskDelete [(cid64ex, collEmptyEx)] ⟨cid64ex, [97], 0⟩
      = [(cid64ex, collEmptyEx)] := by
  constructor
  · exact c8_thm.1 [(cid64ex, collEmptyEx)] ⟨cid64ex, [], 0⟩ cid64ex
      (by decide) (by decide) (cid64ex, collEmptyEx)
  · exact c8_thm.2 [(cid64ex, collEmptyEx)] ⟨cid64ex, [97], 0⟩ (by decide)
